import Mathlib

/-!
Shallow embedding of the personal-finance module (`modulo/arquivo.py`):
classes `Transaction`, `Account`, `Investment`, `Client`.

Modelling choices:
* Monetary amounts and rates are modelled as exact rationals (`ℚ`); the
  source uses Python floats but every claim is about the arithmetic the
  code performs, not about rounding.
* `datetime.now()` is modelled by threading an explicit `DateTime`
  argument (`now`) through every operation that reads the clock.
  `DateTime` carries the `year` and `month` components that
  `calculate_value` reads, plus a `tick` for the finer components
  (day, hour, ...); the order is lexicographic, matching chronological
  order of real datetimes.
* Mutation is modelled by state passing: a method that mutates `self`
  returns the updated record.
* `Transaction.update(**attributes)` receives dynamic keyword arguments;
  they are modelled by the inductive `Attr`, one constructor per field
  the class exposes plus `Attr.other` for an arbitrary unknown
  attribute name carrying a dynamic `Value`.
* The `Investment.client` back-reference is informational only (no
  operation in the module reads it); it is modelled by the client's
  name to keep the structures non-recursive.
-/

namespace Finances

/-- Timestamp: year and month (the components `calculate_value` reads)
plus a `tick` abstracting day/hour/minute/... inside the month. -/
structure DateTime where
  year : Int
  month : Int
  tick : Nat
deriving DecidableEq, Repr

/-- Chronological order on datetimes: lexicographic on
(year, month, tick), as for Python `datetime` values. -/
def DateTime.ble (a b : DateTime) : Bool :=
  if a.year < b.year then true
  else if b.year < a.year then false
  else if a.month < b.month then true
  else if b.month < a.month then false
  else decide (a.tick ≤ b.tick)

/-- `class Transaction`: amount, creation date, category, description. -/
structure Transaction where
  amount : ℚ
  date : DateTime
  category : ℤ
  description : String
deriving DecidableEq, Repr

/-- `Transaction.__init__(amount, category, description="")`:
`self.date = datetime.now()` is the `now` argument. -/
def Transaction.init (amount : ℚ) (category : ℤ) (description : String)
    (now : DateTime) : Transaction :=
  { amount := amount, date := now, category := category,
    description := description }

/-- A dynamic Python value, as far as this module stores them. -/
inductive Value
  | num (q : ℚ)
  | dt (d : DateTime)
  | int (z : ℤ)
  | str (s : String)
deriving DecidableEq, Repr

/-- One keyword argument of `Transaction.update(**attributes)`: either
one of the four fields the class exposes (with a value of that field's
type) or an arbitrary other attribute name with a dynamic value. -/
inductive Attr
  | amount (v : ℚ)
  | date (v : DateTime)
  | category (v : ℤ)
  | description (v : String)
  | other (name : String) (v : Value)
deriving DecidableEq, Repr

/-- The keyword (`key`) of an `Attr` entry. -/
def Attr.name : Attr → String
  | .amount _ => "amount"
  | .date _ => "date"
  | .category _ => "category"
  | .description _ => "description"
  | .other n _ => n

/-- The attribute names a `Transaction` object exposes after
`__init__`. -/
def Transaction.fieldNames : List String :=
  ["amount", "date", "category", "description"]

/-- `hasattr(self, key)` for a `Transaction`. -/
def Transaction.hasattr (a : Attr) : Bool :=
  Transaction.fieldNames.contains a.name

/-- `setattr(self, key, value)` for a key the class exposes;
`Attr.other` entries are only reached behind `hasattr`, which is false
for names outside `fieldNames`. -/
def Transaction.setattr (t : Transaction) : Attr → Transaction
  | .amount v => { t with amount := v }
  | .date v => { t with date := v }
  | .category v => { t with category := v }
  | .description v => { t with description := v }
  | .other _ _ => t

/-- `Transaction.update(**attributes)`: for each key, value pair, if
`hasattr(self, key)` then `setattr(self, key, value)`; unknown keys are
skipped. Never raises. -/
def Transaction.update (t : Transaction) (attributes : List Attr) :
    Transaction :=
  attributes.foldl
    (fun t a => if Transaction.hasattr a then t.setattr a else t) t

/-- `class Account`: name, running balance, ordered transaction list. -/
structure Account where
  name : String
  balance : ℚ
  transactions : List Transaction
deriving DecidableEq, Repr

/-- `Account.__init__(name)`: balance 0, empty transaction list. -/
def Account.init (name : String) : Account :=
  { name := name, balance := 0, transactions := [] }

/-- `Account.add_transaction(amount, category, description="")`:
constructs a `Transaction` stamped `now`, appends it, adds `amount` to
`balance`, returns the updated account and the created transaction. -/
def Account.add_transaction (acc : Account) (amount : ℚ) (category : ℤ)
    (description : String) (now : DateTime) : Account × Transaction :=
  let transaction := Transaction.init amount category description now
  ({ acc with
      transactions := acc.transactions ++ [transaction],
      balance := acc.balance + amount },
   transaction)

/-- `Account.get_transactions(start_date=None, end_date=None,
category=None)`: successive filters guarded by Python truthiness.
`datetime` objects are always truthy, so the date guards only test for
`None`; the integer `category` is falsy both when `None` and when `0`,
so `category=0` applies no filter. -/
def Account.get_transactions (acc : Account)
    (start_date : Option DateTime) (end_date : Option DateTime)
    (category : Option ℤ) : List Transaction :=
  let result := acc.transactions
  let result := match start_date with
    | none => result
    | some sd => result.filter (fun t => DateTime.ble sd t.date)
  let result := match end_date with
    | none => result
    | some ed => result.filter (fun t => DateTime.ble t.date ed)
  match category with
  | none => result
  | some c =>
      if c = 0 then result
      else result.filter (fun t => t.category == c)

/-- `class Investment`: type label, principal, purchase date, monthly
rate of return, back-reference to the owning client (modelled by the
client's name; no operation of the module reads it). -/
structure Investment where
  type : String
  initial_amount : ℚ
  date_purchased : DateTime
  rate_of_return : ℚ
  client : String
deriving DecidableEq, Repr

/-- `Investment.__init__(type, amount, rate_of_return, client)`:
`date_purchased = datetime.now()` is the `now` argument. -/
def Investment.init (type : String) (amount : ℚ) (rate_of_return : ℚ)
    (client : String) (now : DateTime) : Investment :=
  { type := type, initial_amount := amount, date_purchased := now,
    rate_of_return := rate_of_return, client := client }

/-- `Investment.calculate_value()`:
`months = (now.year - purchased.year) * 12 + (now.month -
purchased.month)`; returns `initial_amount * (1 + rate_of_return) **
months`. Pure: reads the clock, mutates nothing. -/
def Investment.calculate_value (inv : Investment) (now : DateTime) : ℚ :=
  let months : ℤ :=
    (now.year - inv.date_purchased.year) * 12 +
      (now.month - inv.date_purchased.month)
  inv.initial_amount * (1 + inv.rate_of_return) ^ months

/-- `Investment.sell(account)`: computes the current value and calls
`account.add_transaction(current_value, 0, f"Venda de {self.type}")`.
Only the account changes; the investment record is untouched. -/
def Investment.sell (inv : Investment) (account : Account)
    (now : DateTime) : Account :=
  let current_value := inv.calculate_value now
  (account.add_transaction current_value 0 ("Venda de " ++ inv.type)
    now).1

/-- `class Client`: name, accounts, investments. -/
structure Client where
  name : String
  accounts : List Account
  investments : List Investment
deriving DecidableEq, Repr

/-- `Client.__init__(name)`: empty account and investment lists. -/
def Client.init (name : String) : Client :=
  { name := name, accounts := [], investments := [] }

/-- `Client.add_account(account_name)`: creates a fresh `Account`,
appends it, returns the updated client and the account. -/
def Client.add_account (c : Client) (account_name : String) :
    Client × Account :=
  let account := Account.init account_name
  ({ c with accounts := c.accounts ++ [account] }, account)

/-- `Client.add_investment(investment)`: appends the already
constructed investment. -/
def Client.add_investment (c : Client) (investment : Investment) :
    Client :=
  { c with investments := c.investments ++ [investment] }

/-- `Client.get_net_worth()`: sum of account balances plus sum of the
investments' `calculate_value()`, recomputed from the lists on every
call. -/
def Client.get_net_worth (c : Client) (now : DateTime) : ℚ :=
  let account_balance := (c.accounts.map Account.balance).sum
  let investment_value :=
    (c.investments.map (fun i => i.calculate_value now)).sum
  account_balance + investment_value

/-- One recorded `add_transaction` call: the `amount`, `category` and
`description` arguments plus the clock reading at the call. -/
structure Call where
  amount : ℚ
  category : ℤ
  description : String
  now : DateTime
deriving DecidableEq, Repr

/-- Perform a sequence of `add_transaction` calls on an account,
discarding the returned transactions. -/
def Account.run_calls (acc : Account) (calls : List Call) : Account :=
  calls.foldl
    (fun a c => (a.add_transaction c.amount c.category c.description
      c.now).1) acc

/-- `run_calls` leaves the account's name unchanged, adds the sum of
the call amounts to the balance, and appends one transaction per call
in order, each built by `Transaction.init` from that call's
arguments. -/
theorem Account.run_calls_spec (acc : Account) (calls : List Call) :
    (acc.run_calls calls).name = acc.name ∧
    (acc.run_calls calls).balance =
      acc.balance + (calls.map Call.amount).sum ∧
    (acc.run_calls calls).transactions =
      acc.transactions ++
        calls.map (fun c =>
          Transaction.init c.amount c.category c.description c.now) := by
  induction calls generalizing acc with
  | nil => simp [Account.run_calls]
  | cons c rest ih =>
      obtain ⟨h1, h2, h3⟩ :=
        ih ((acc.add_transaction c.amount c.category c.description
          c.now).1)
      refine ⟨?_, ?_, ?_⟩
      · simpa [Account.run_calls, Account.add_transaction] using h1
      · simp only [Account.run_calls, List.foldl_cons] at h2 ⊢
        rw [h2]
        simp [Account.add_transaction]
        ring
      · simp only [Account.run_calls, List.foldl_cons] at h3 ⊢
        rw [h3]
        simp [Account.add_transaction]

/-- Claim C1: an account created by `Account.__init__` or by
`Client.add_account` starts at balance 0, and after any finite sequence
of `add_transaction` calls the balance equals the arithmetic sum of all
the amount arguments passed. -/
theorem claim_C1 (c : Client) (nm : String) (calls : List Call) :
    (Account.init nm).balance = 0 ∧
    (c.add_account nm).2.balance = 0 ∧
    ((Account.init nm).run_calls calls).balance =
      (calls.map Call.amount).sum := by
  refine ⟨rfl, rfl, ?_⟩
  have h := (Account.run_calls_spec (Account.init nm) calls).2.1
  simpa [Account.init] using h

/-- Claim C2: `get_net_worth()` returns the sum of the account balances
plus the sum of the investments' `calculate_value()` at call time, with
no caching: if any account in the list receives an `add_transaction`
of some amount, the next `get_net_worth()` call is larger by exactly
that amount, with no invalidation step. -/
theorem claim_C2 (c : Client) (now : DateTime) (pre post : List Account)
    (a : Account) (amount : ℚ) (cat : ℤ) (descr : String)
    (tnow : DateTime) (h : c.accounts = pre ++ a :: post) :
    c.get_net_worth now =
      (c.accounts.map Account.balance).sum +
        (c.investments.map (fun i => i.calculate_value now)).sum ∧
    Client.get_net_worth
      { c with accounts :=
          pre ++ (a.add_transaction amount cat descr tnow).1 :: post }
      now = c.get_net_worth now + amount := by
  constructor
  · rfl
  · simp only [Client.get_net_worth, h, List.map_append, List.sum_append,
      List.map_cons, List.sum_cons, Account.add_transaction]
    ring

/-- Claim C3: `calculate_value()` returns
`initial_amount * (1 + rate_of_return) ^ months` with
`months = (now.year - purchased.year) * 12 + (now.month -
purchased.month)`, and the result depends only on the year and month
components of the clock: two clock readings agreeing on year and month
give the same value (day-of-month and finer components are ignored).
The investment record itself is a plain input, never modified. -/
theorem claim_C3 (inv : Investment) (now now' : DateTime)
    (hy : now.year = now'.year) (hm : now.month = now'.month) :
    inv.calculate_value now =
      inv.initial_amount * (1 + inv.rate_of_return) ^
        ((now.year - inv.date_purchased.year) * 12 +
          (now.month - inv.date_purchased.month)) ∧
    inv.calculate_value now = inv.calculate_value now' := by
  refine ⟨rfl, ?_⟩
  simp only [Investment.calculate_value, hy, hm]

/-- Witness for C3: a concrete investment valued at two clock readings
in the same calendar month. -/
theorem claim_C3_witness :
    (DateTime.mk 2024 1 5).year = (DateTime.mk 2024 1 9).year ∧
    (DateTime.mk 2024 1 5).month = (DateTime.mk 2024 1 9).month ∧
    ((Investment.init "Fundo" 1000 (1 / 100) "Alice" ⟨2024, 1, 0⟩
        |>.calculate_value ⟨2024, 1, 5⟩) =
      1000 * (1 + 1 / 100) ^
        ((2024 - 2024 : ℤ) * 12 + (1 - 1 : ℤ)) ∧
    (Investment.init "Fundo" 1000 (1 / 100) "Alice" ⟨2024, 1, 0⟩
        |>.calculate_value ⟨2024, 1, 5⟩) =
      (Investment.init "Fundo" 1000 (1 / 100) "Alice" ⟨2024, 1, 0⟩
        |>.calculate_value ⟨2024, 1, 9⟩)) :=
  ⟨rfl, rfl,
    claim_C3 (Investment.init "Fundo" 1000 (1 / 100) "Alice" ⟨2024, 1, 0⟩)
      ⟨2024, 1, 5⟩ ⟨2024, 1, 9⟩ rfl rfl⟩

/-- Witness for C2: a client with one account and no investments;
crediting 500 raises net worth by 500. -/
theorem claim_C2_witness :
    (Client.mk "Alice" [Account.init "Conta"] []).accounts =
      [] ++ Account.init "Conta" :: [] ∧
    ((Client.mk "Alice" [Account.init "Conta"] []).get_net_worth
        ⟨2024, 1, 0⟩ =
      (((Client.mk "Alice" [Account.init "Conta"] []).accounts.map
          Account.balance).sum +
        (((Client.mk "Alice" [Account.init "Conta"] []).investments.map
          (fun i => i.calculate_value ⟨2024, 1, 0⟩)).sum)) ∧
    Client.get_net_worth
      { Client.mk "Alice" [Account.init "Conta"] [] with accounts :=
          [] ++ ((Account.init "Conta").add_transaction 500 1 "Dep"
            ⟨2024, 1, 0⟩).1 :: [] } ⟨2024, 1, 0⟩ =
      (Client.mk "Alice" [Account.init "Conta"] []).get_net_worth
        ⟨2024, 1, 0⟩ + 500) :=
  ⟨rfl,
    claim_C2 (Client.mk "Alice" [Account.init "Conta"] []) ⟨2024, 1, 0⟩
      [] [] (Account.init "Conta") 500 1 "Dep" ⟨2024, 1, 0⟩ rfl⟩

/-- Counterexample for C4: an account holding one transaction of
category 1. Filtering with `category = 0` returns the whole ledger
(the source's `if category:` truthiness guard treats 0 as "no
filter"), not the empty subsequence of category-0 transactions. -/
theorem claim_C4_counterexample :
    ((Account.init "Conta").add_transaction 500 1 "Dep"
        ⟨2024, 1, 0⟩).1.get_transactions none none (some 0) ≠
      (((Account.init "Conta").add_transaction 500 1 "Dep"
        ⟨2024, 1, 0⟩).1.transactions.filter
          (fun t => t.category == (0 : ℤ))) := by
  decide

/-- Claim C4 (amended): for every nonzero integer `c`,
`get_transactions(category=c)` returns exactly the subsequence of the
transactions whose category equals `c`, in insertion order; for
`c = 0` (falsy in Python) the category filter is skipped and the full
ledger is returned. -/
theorem claim_C4 (acc : Account) (c : ℤ) (h : c ≠ 0) :
    acc.get_transactions none none (some c) =
      acc.transactions.filter (fun t => t.category == c) ∧
    acc.get_transactions none none (some 0) = acc.transactions := by
  constructor
  · simp [Account.get_transactions, h]
  · simp [Account.get_transactions]

/-- Witness for C4: filtering the Alice scenario account by
category 1 keeps exactly the deposit. -/
theorem claim_C4_witness :
    (1 : ℤ) ≠ 0 ∧
    ((((Account.init "Conta").add_transaction 500 1 "Dep"
        ⟨2024, 1, 0⟩).1.get_transactions none none (some 1) =
      (((Account.init "Conta").add_transaction 500 1 "Dep"
        ⟨2024, 1, 0⟩).1.transactions.filter
          (fun t => t.category == (1 : ℤ)))) ∧
    ((Account.init "Conta").add_transaction 500 1 "Dep"
        ⟨2024, 1, 0⟩).1.get_transactions none none (some 0) =
      ((Account.init "Conta").add_transaction 500 1 "Dep"
        ⟨2024, 1, 0⟩).1.transactions) :=
  ⟨by decide,
    claim_C4 ((Account.init "Conta").add_transaction 500 1 "Dep"
      ⟨2024, 1, 0⟩).1 1 (by decide)⟩

/-- Counterexample for C6: the transaction created by `sell` carries
the Portuguese description `"Venda de {type}"`, not
`"Sale of {type}"`: for a concrete investment of type `"Fundo"` the
appended description is `"Venda de Fundo"`, which differs from
`"Sale of Fundo"`. -/
theorem claim_C6_counterexample :
    (((Investment.init "Fundo" 1000 0 "Alice" ⟨2024, 1, 0⟩).sell
        (Account.init "Conta") ⟨2024, 1, 0⟩).transactions.map
          Transaction.description = ["Venda de Fundo"]) ∧
    "Venda de Fundo" ≠ "Sale of Fundo" := by
  constructor
  · rfl
  · decide

/-- Claim C6 (amended): the transaction created by
`sell(target_account)` has description equal to the string
`"Venda de "` followed by the investment's type field. -/
theorem claim_C6 (inv : Investment) (acc : Account) (now : DateTime) :
    ∃ t, (inv.sell acc now).transactions = acc.transactions ++ [t] ∧
      t.description = "Venda de " ++ inv.type :=
  ⟨Transaction.init (inv.calculate_value now) 0
    ("Venda de " ++ inv.type) now, rfl, rfl⟩

/-- Claim C5: `sell(account)` leaves the account balance equal to the
old balance plus the investment's value at call time and appends
exactly one transaction, whose amount is that value and whose category
is 0. -/
theorem claim_C5 (inv : Investment) (acc : Account) (now : DateTime) :
    (inv.sell acc now).balance =
      acc.balance + inv.calculate_value now ∧
    ∃ t, (inv.sell acc now).transactions = acc.transactions ++ [t] ∧
      t.amount = inv.calculate_value now ∧ t.category = 0 := by
  refine ⟨rfl, ⟨Transaction.init (inv.calculate_value now) 0
    ("Venda de " ++ inv.type) now, rfl, rfl, rfl⟩⟩

/-- Claim C8: `get_transactions()` with no filter arguments returns the
full transaction sequence in insertion order; the call is read-only, so
in this state-passing embedding it takes the account by value and
returns a list without producing any updated account. -/
theorem claim_C8 (acc : Account) :
    acc.get_transactions none none none = acc.transactions := rfl

/-- Claim C7: `sell` returns only the updated account — the investment
record is untouched and no client record is involved, so the
investment stays in its client's investments list. Consequently `n`
successive sells at the same clock reading (so `calculate_value`
returns the same value `V` each time) credit the account `n` times:
the balance grows by `n * V` and one sale transaction of amount `V` is
appended per call. -/
theorem claim_C7 (inv : Investment) (acc : Account) (now : DateTime)
    (n : ℕ) :
    ((fun a => inv.sell a now)^[n] acc).balance =
      acc.balance + n * inv.calculate_value now ∧
    ((fun a => inv.sell a now)^[n] acc).transactions =
      acc.transactions ++
        List.replicate n (Transaction.init (inv.calculate_value now) 0
          ("Venda de " ++ inv.type) now) := by
  induction n with
  | zero => simp
  | succ m ih =>
      obtain ⟨ih1, ih2⟩ := ih
      have hb : ∀ a : Account, (inv.sell a now).balance =
          a.balance + inv.calculate_value now := fun _ => rfl
      have ht : ∀ a : Account, (inv.sell a now).transactions =
          a.transactions ++ [Transaction.init (inv.calculate_value now)
            0 ("Venda de " ++ inv.type) now] := fun _ => rfl
      constructor
      · rw [Function.iterate_succ_apply']
        simp only [hb, ih1]
        push_cast
        ring
      · rw [Function.iterate_succ_apply']
        simp only [ht, ih2]
        rw [List.append_assoc, ← List.replicate_succ' m]

/-- Claim C9: `Transaction.update(**attributes)` overwrites each field
the object exposes (amount, date, category, description) with the
supplied value, silently drops every entry whose name is not an
attribute of the object, and never raises (it is a total function). -/
theorem claim_C9 (t : Transaction) (q : ℚ) (d : DateTime) (cz : ℤ)
    (s : String) (n : String) (v : Value) (rest : List Attr)
    (h : Transaction.fieldNames.contains n = false) :
    t.update (Attr.other n v :: rest) = t.update rest ∧
    t.update [Attr.amount q] = { t with amount := q } ∧
    t.update [Attr.date d] = { t with date := d } ∧
    t.update [Attr.category cz] = { t with category := cz } ∧
    t.update [Attr.description s] = { t with description := s } := by
  refine ⟨?_, rfl, rfl, rfl, rfl⟩
  have h' : n ∉ Transaction.fieldNames := by simpa using h
  simp [Transaction.update, Transaction.hasattr, Attr.name, h']

/-- Witness for C9: patching a concrete transaction; the unknown key
"foo" is dropped, each known key overwrites its field. -/
theorem claim_C9_witness :
    Transaction.fieldNames.contains "foo" = false ∧
    ((Transaction.init 500 1 "Dep" ⟨2024, 1, 0⟩).update
        [Attr.other "foo" (Value.int 3)] =
      (Transaction.init 500 1 "Dep" ⟨2024, 1, 0⟩).update [] ∧
    (Transaction.init 500 1 "Dep" ⟨2024, 1, 0⟩).update
        [Attr.amount 7] =
      { Transaction.init 500 1 "Dep" ⟨2024, 1, 0⟩ with amount := 7 } ∧
    (Transaction.init 500 1 "Dep" ⟨2024, 1, 0⟩).update
        [Attr.date ⟨2025, 2, 1⟩] =
      { Transaction.init 500 1 "Dep" ⟨2024, 1, 0⟩ with
          date := ⟨2025, 2, 1⟩ } ∧
    (Transaction.init 500 1 "Dep" ⟨2024, 1, 0⟩).update
        [Attr.category 2] =
      { Transaction.init 500 1 "Dep" ⟨2024, 1, 0⟩ with category := 2 } ∧
    (Transaction.init 500 1 "Dep" ⟨2024, 1, 0⟩).update
        [Attr.description "x"] =
      { Transaction.init 500 1 "Dep" ⟨2024, 1, 0⟩ with
          description := "x" }) :=
  ⟨by decide,
    claim_C9 (Transaction.init 500 1 "Dep" ⟨2024, 1, 0⟩) 7 ⟨2025, 2, 1⟩
      2 "x" "foo" (Value.int 3) [] (by decide)⟩

/-- Claim C10: an account built by a sequence of `add_transaction`
calls under a monotone clock (each call's `now` is no earlier than the
previous call's) has non-decreasing transaction dates in insertion
order, because `add_transaction` stamps each new transaction with the
clock reading at the moment of the append. -/
theorem claim_C10 (nm : String) (calls : List Call)
    (h : List.Chain'
      (fun x y : Call => DateTime.ble x.now y.now = true) calls) :
    List.Chain' (fun a b : DateTime => DateTime.ble a b = true)
      (((Account.init nm).run_calls calls).transactions.map
        Transaction.date) := by
  have h3 := (Account.run_calls_spec (Account.init nm) calls).2.2
  rw [h3]
  simp only [Account.init, List.nil_append, List.map_map]
  rw [List.chain'_map]
  exact h

/-- Witness for C10: two calls with increasing timestamps yield a
date-sorted ledger. -/
theorem claim_C10_witness :
    List.Chain' (fun x y : Call => DateTime.ble x.now y.now = true)
      [⟨500, 1, "Dep", ⟨2024, 1, 0⟩⟩, ⟨-200, 2, "Compra", ⟨2024, 2, 0⟩⟩] ∧
    List.Chain' (fun a b : DateTime => DateTime.ble a b = true)
      (((Account.init "Conta").run_calls
        [⟨500, 1, "Dep", ⟨2024, 1, 0⟩⟩,
         ⟨-200, 2, "Compra", ⟨2024, 2, 0⟩⟩]).transactions.map
        Transaction.date) :=
  ⟨List.chain'_cons.mpr ⟨by decide, List.chain'_singleton _⟩,
    claim_C10 "Conta"
      [⟨500, 1, "Dep", ⟨2024, 1, 0⟩⟩, ⟨-200, 2, "Compra", ⟨2024, 2, 0⟩⟩]
      (List.chain'_cons.mpr
        ⟨by decide, List.chain'_singleton _⟩)⟩

end Finances
